import Mathlib

/-!
Shallow embedding of the Gaia `TaskManager` (card-view task switcher,
`js/task_manager.js` of the system app) in Lean 4, together with proofs of
the spec's claims about it.

Modelling conventions:
* An `AppWindow` is an opaque handle carrying just the observable fields the
  TaskManager reads (`isBrowser()`, `manifest.role`, `isHomescreen`).
* A `Card` is identified by a fresh `cardId` (standing for the JS object /
  DOM element identity); `new Card(app, ...)` allocates a fresh id.
* JS `Map`s become association lists with the JS `Map` operations
  (`get` / `set` / `delete`) modelled key-wise; iteration order is insertion
  order, as in JS.
* Pixel arithmetic (`window.innerWidth / 2`, offsets, scroll positions) is
  modelled over `Rat`; the JS engine computes the same values in binary
  floating point, which agrees on these affine computations at realistic
  magnitudes.
* Side effects (DOM mutation, lifecycle notifications, published events,
  `kill()`) are recorded in an explicit trace of `Effect`s; each modelled
  operation returns the updated state together with the trace of the
  effects it performed, in program order.
* The external collaborators (`StackManager`, `Service`,
  `AppWindowManager`) are an `Env` parameter supplying the values the code
  queries from them.
-/

namespace TaskManager

/-- A window handle, with the fields the TaskManager observes. -/
structure AppWindow where
  id : Nat
  isBrowser : Bool
  manifestRole : Option String
  isHomescreen : Bool
deriving DecidableEq, Repr

/-- A card record; `cardId` models the identity of the JS Card object and
of its DOM element. -/
structure Card where
  cardId : Nat
  app : AppWindow
  screenshotsDisabled : Bool
deriving DecidableEq, Repr

/-- One observable side effect, in program order. -/
inductive Effect where
  | appendChild (cardId : Nat)
  | removeChild (cardId : Nat)
  | enterTaskManager (app : AppWindow)
  | leaveTaskManager (app : AppWindow)
  | setL10nId (l10nId : String)
  | toggleClass (elem cls : String) (force : Bool)
  | addClass (elem cls : String)
  | removeClass (elem cls : String)
  | translateCard (cardId : Nat) (x : Rat)
  | setCardsListWidth (w : Rat)
  | setAria (cardId : Nat) (attr value : String)
  | scrollTo (left : Rat) (smooth : Bool)
  | publish (evtType : String) (newStackPosition : Option Int)
  | addListeners
  | removeListeners
  | openWindow (app : AppWindow) (transition : String)
  | closeWindow (app : AppWindow) (transition : String)
  | kill (app : AppWindow)
  | consoleLog (msg : String)
deriving DecidableEq, Repr

/-- JS `Map.prototype.get`. -/
def mapFind {α β : Type} [DecidableEq α] (m : List (α × β)) (k : α) : Option β :=
  match m with
  | [] => none
  | (a, b) :: rest => if a = k then some b else mapFind rest k

/-- JS `Map.prototype.delete` (on a map with unique keys this removes the
one entry with key `k`). -/
def mapDelete {α β : Type} [DecidableEq α] (m : List (α × β)) (k : α) : List (α × β) :=
  match m with
  | [] => []
  | (a, b) :: rest => if a = k then mapDelete rest k else (a, b) :: mapDelete rest k

/-- JS `Map.prototype.set`: replace in place if the key is present,
otherwise append (insertion order). -/
def mapSet {α β : Type} [DecidableEq α] (m : List (α × β)) (k : α) (v : β) : List (α × β) :=
  match m with
  | [] => [(k, v)]
  | (a, b) :: rest => if a = k then (a, v) :: rest else (a, b) :: mapSet rest k v

/-- The keys of a map, in insertion order. -/
def mapKeys {α β : Type} (m : List (α × β)) : List α := m.map Prod.fst

/-- The mutable state of the TaskManager singleton.  Field names follow the
source (`_active`, `_isTransitioning` and `_browserOnly` lose their leading
underscore). -/
structure State where
  appToCardMap : List (AppWindow × Card)
  elementToCardMap : List (Nat × Card)
  stack : List AppWindow
  currentCard : Option Card
  active : Bool
  isTransitioning : Bool
  browserOnly : Bool
  disableScreenshots : Bool
  nextCardId : Nat
  innerWidth : Rat
  innerHeight : Rat
  scrollLeft : Rat
  cardWidth : Rat
  cardHeight : Rat
deriving DecidableEq, Repr

/-- Values the TaskManager queries from its external collaborators
(`StackManager.snapshot()`, `StackManager.getCurrent()`,
`AppWindowManager.getActiveWindow`, `Service.query('getHomescreen')`). -/
structure Env where
  snapshot : List AppWindow
  currentApp : Option AppWindow
  activeApp : Option AppWindow
  homescreen : Option AppWindow
deriving DecidableEq, Repr

/-- `CARD_GUTTER: 25`. -/
def CARD_GUTTER : Rat := 25

/-- The browser-only filter predicate of `updateStack`:
`app.isBrowser() || (app.manifest && app.manifest.role === 'search')`.
`manifestRole = none` models both a missing manifest and a missing role. -/
def isBrowserOrSearch (a : AppWindow) : Bool :=
  a.isBrowser || a.manifestRole == some "search"

/-- `_addApp(app)`: construct a Card (fresh object identity), append its
element to the DOM list, and register it in both maps. -/
def _addApp (s : State) (app : AppWindow) : State × Card × List Effect :=
  let card : Card :=
    { cardId := s.nextCardId, app := app, screenshotsDisabled := s.disableScreenshots }
  ({ s with
      nextCardId := s.nextCardId + 1,
      elementToCardMap := mapSet s.elementToCardMap card.cardId card,
      appToCardMap := mapSet s.appToCardMap app card },
   card,
   [Effect.appendChild card.cardId])

/-- `_removeApp(app)`: if a card is registered for `app`, unregister it
from both maps and remove its element from the DOM list. -/
def _removeApp (s : State) (app : AppWindow) : State × List Effect :=
  match mapFind s.appToCardMap app with
  | some card =>
    ({ s with
        appToCardMap := mapDelete s.appToCardMap app,
        elementToCardMap := mapDelete s.elementToCardMap card.cardId },
     [Effect.removeChild card.cardId])
  | none => (s, [])

/-- The removal loop of `updateStack`:
`this.appToCardMap.forEach((card, app) => { if (!latestAppSet.has(app)) this._removeApp(app); })`.
`entries` is the map contents when the loop starts (the callback only ever
deletes the entry currently being visited, so iterating the initial
contents is faithful to JS `Map.forEach` semantics). -/
def removePass : List (AppWindow × Card) → List AppWindow → State → State × List Effect
  | [], _, s => (s, [])
  | (app, _) :: rest, latest, s =>
    if app ∈ latest then removePass rest latest s
    else
      let r1 := _removeApp s app
      let r2 := removePass rest latest r1.1
      (r2.1, r1.2 ++ r2.2)

/-- The addition loop of `updateStack`:
`this.stack.forEach((app) => { var card = this.appToCardMap.get(app); if (!card) { card = this._addApp(app); app.enterTaskManager(); } })`. -/
def addPass : List AppWindow → State → State × List Effect
  | [], s => (s, [])
  | app :: rest, s =>
    match mapFind s.appToCardMap app with
    | some _ => addPass rest s
    | none =>
      let r1 := _addApp s app
      let r2 := addPass rest r1.1
      (r2.1, r1.2.2 ++ [Effect.enterTaskManager app] ++ r2.2)

/-- `this.cardWidth = window.innerWidth / 2`. -/
def layoutCardWidth (w : Rat) : Rat := w / 2

/-- `var margins = window.innerWidth - this.cardWidth`. -/
def layoutMargins (w : Rat) : Rat := w - layoutCardWidth w

/-- The per-card horizontal offset computed in `updateLayout`:
`var left = (margins / 2) + (offset * index)` with
`offset = this.cardWidth + this.CARD_GUTTER`. -/
def layoutOffset (w : Rat) (i : Nat) : Rat :=
  layoutMargins w / 2 + (layoutCardWidth w + CARD_GUTTER) * (i : Rat)

/-- The scroll-container width computed in `updateLayout`:
`margins + Math.max(cardWidth, cardWidth * count + CARD_GUTTER * (count - 1))`.
Note `count - 1` is computed in JS number arithmetic, so it is `-1` when
`count = 0`; hence the cast to `Rat` before subtracting. -/
def layoutContentWidth (w : Rat) (count : Nat) : Rat :=
  layoutMargins w +
    max (layoutCardWidth w) (layoutCardWidth w * (count : Rat) + CARD_GUTTER * ((count : Rat) - 1))

/-- The translate loop of `updateLayout`.  In JS a missing map entry would
throw on `card.translate`; the reconciliation invariant (claim C1) makes
that branch unreachable when layout follows a synchronization pass, and the
model simply emits nothing for it. -/
def translatePass (m : List (AppWindow × Card)) (stack : List AppWindow)
    (w : Rat) (index : Nat) : List Effect :=
  match stack with
  | [] => []
  | app :: rest =>
    (match mapFind m app with
     | some card => [Effect.translateCard card.cardId (layoutOffset w index)]
     | none => []) ++ translatePass m rest w (index + 1)

/-- `getCurrentIndex()`:
`Math.min(this.stack.length - 1, Math.floor(this.scrollElement.scrollLeft / this.cardWidth))`.
(JS division by a zero `cardWidth` would give `Infinity`/`NaN`; `Rat`
division by zero gives `0`.  All claims about this function assume a
positive card width.) -/
def getCurrentIndex (s : State) : Int :=
  min ((s.stack.length : Int) - 1) (Int.floor (s.scrollLeft / s.cardWidth))

/-- JS indexing `stack[i]`, `undefined` out of bounds. -/
def stackGet (stack : List AppWindow) (i : Int) : Option AppWindow :=
  if 0 ≤ i then stack.get? i.toNat else none

/-- `this.appToCardMap.get(this.stack[index])` as computed at the top of
`updateScrollPosition`.  (In JS, `stack[-1]` is `undefined` and
`map.get(undefined)` is `undefined`; both collapse to `none` here, as does
the initial `null` of `this.currentCard` — the two are observationally
interchangeable everywhere the field is read.) -/
def computedCurrentCard (s : State) : Option Card :=
  (stackGet s.stack (getCurrentIndex s)).bind (fun app => mapFind s.appToCardMap app)

/-- The attribute loop of `updateScrollPosition`: for each stack entry, set
`aria-hidden` (`card !== currentCard`, coerced to a string by
`setAttribute`), `aria-setsize` and `aria-posinset`.  As in
`translatePass`, a missing map entry would throw in JS and emits nothing
here. -/
def ariaPass (m : List (AppWindow × Card)) (stack : List AppWindow)
    (currentCard : Option Card) (setsize : Nat) (idx : Nat) : List Effect :=
  match stack with
  | [] => []
  | app :: rest =>
    (match mapFind m app with
     | some card =>
       [Effect.setAria card.cardId "aria-hidden" (if some card = currentCard then "false" else "true"),
        Effect.setAria card.cardId "aria-setsize" (toString setsize),
        Effect.setAria card.cardId "aria-posinset" (toString (idx + 1))]
     | none => []) ++ ariaPass m rest currentCard setsize (idx + 1)

/-- `updateScrollPosition()`: recompute the current card from the scroll
offset; if it changed, store it and rewrite the accessibility attributes of
every card, otherwise do nothing. -/
def updateScrollPosition (s : State) : State × List Effect :=
  let currentCard := computedCurrentCard s
  if s.currentCard = currentCard then (s, [])
  else
    ({ s with currentCard := currentCard },
     ariaPass s.appToCardMap s.stack currentCard s.stack.length 0)

/-- `updateLayout()`: recompute card dimensions, translate every card to
its offset, set the scroll-strip width, then update the scroll position. -/
def updateLayout (s : State) : State × List Effect :=
  let s1 : State :=
    { s with
        cardWidth := layoutCardWidth s.innerWidth,
        cardHeight := layoutCardWidth s.innerHeight }
  let translateEffects := translatePass s1.appToCardMap s1.stack s1.innerWidth 0
  let r := updateScrollPosition s1
  (r.1,
   translateEffects ++
     [Effect.setCardsListWidth (layoutContentWidth s1.innerWidth s1.stack.length)] ++ r.2)

/-- `updateStack()`: copy (and optionally filter) the external stack
snapshot, update the empty-list l10n id and the `filtered` class, remove
cards for vanished windows, add cards (with an `enterTaskManager`
notification) for new ones, then update the layout. -/
def updateStack (snapshot : List AppWindow) (s : State) : State × List Effect :=
  let stack0 := if s.browserOnly then snapshot.filter isBrowserOrSearch else snapshot
  let s1 : State := { s with stack := stack0 }
  let l10nEffects :=
    [Effect.setL10nId (if s.browserOnly then "no-recent-browser-windows" else "no-recent-app-windows"),
     Effect.toggleClass "task-manager" "filtered" s.browserOnly]
  let r2 := removePass s1.appToCardMap stack0 s1
  let r3 := addPass stack0 r2.1
  let r4 := updateLayout r3.1
  (r4.1, l10nEffects ++ r2.2 ++ r3.2 ++ r4.2)

/-- JS `a || b` on nullable window references. -/
def jsOr : Option AppWindow → Option AppWindow → Option AppWindow
  | some a, _ => some a
  | none, b => b

/-- JS `Array.prototype.indexOf` (first index, `-1` when absent; `indexOf`
of `undefined` on a stack of windows is `-1`). -/
def jsIndexOf : List AppWindow → Option AppWindow → Int
  | _, none => -1
  | [], some _ => -1
  | a :: rest, some x =>
    if a = x then 0
    else
      let r := jsIndexOf rest (some x)
      if r = -1 then -1 else r + 1

/-- `panToApp(app, immediately)`: find the window's index (falling back to
the last position), and scroll to `(cardWidth + CARD_GUTTER) * idx` unless
already there.  The model records the requested position in `scrollLeft`
immediately; the 200ms settle delay and DOM clamping are not modelled. -/
def panToApp (app : Option AppWindow) (immediately : Bool) (s : State) : State × List Effect :=
  let idx0 := jsIndexOf s.stack app
  let idx := if idx0 = -1 then (s.stack.length : Int) - 1 else idx0
  let desiredPosition := (s.cardWidth + CARD_GUTTER) * (idx : Rat)
  if s.scrollLeft = desiredPosition then (s, [])
  else
    ({ s with scrollLeft := desiredPosition },
     [Effect.scrollTo desiredPosition (!immediately)])

/-- `setActive(active)`: no-op when unchanged; otherwise clear the
in-flight transition guard, flip the flag, publish the
activated/deactivated notification and toggle the CSS classes. -/
def setActive (active : Bool) (s : State) : State × List Effect :=
  if s.active = active then (s, [])
  else
    ({ s with active := active, isTransitioning := false },
     [Effect.publish (if active then "taskmanager-activated" else "taskmanager-deactivated") none,
      Effect.toggleClass "task-manager" "active" active,
      Effect.toggleClass "task-manager" "empty" (active && s.stack.length == 0)])

/-- The synchronous prefix of `show(opts)` once the re-entrancy guard has
passed: set `_isTransitioning`, record `_browserOnly`, publish
`cardviewbeforeshow`.  (`opts = none` models calling `show()` without
arguments: `opts && opts.browserOnly` is then falsy.) -/
def showBegin (opts : Option Bool) (s : State) : State × List Effect :=
  ({ s with
      isTransitioning := true,
      browserOnly := match opts with | some b => b | none => false },
   [Effect.publish "cardviewbeforeshow" none])

/-- The continuation of `show` that runs after
`TaskManagerUtils.waitForScreenToBeReady()` resolves: attach listeners,
synchronize the stack, pan to the current window without animation, mark
active, and close a homescreen active window with the `home-to-cardview`
transition. -/
def showAfterScreenReady (env : Env) (s : State) : State × List Effect :=
  let r2 := updateStack env.snapshot s
  let r3 := panToApp env.currentApp true r2.1
  let r4 := setActive true r3.1
  let closeEffects :=
    match env.activeApp with
    | some app =>
      if app.isHomescreen then
        [Effect.closeWindow app "home-to-cardview",
         Effect.addClass "task-manager" "from-home"]
      else []
    | none => []
  (r4.1, Effect.addListeners :: (r2.2 ++ r3.2 ++ r4.2 ++ closeEffects))

/-- The final continuation of `show`, after
`TaskManagerUtils.waitForAppToClose(activeApp)` resolves: publish
`cardviewshown` and fix up the CSS classes. -/
def showAfterAppClosed (s : State) : State × List Effect :=
  (s,
   [Effect.publish "cardviewshown" none,
    Effect.addClass "screen" "cards-view",
    Effect.removeClass "task-manager" "from-home"])

/-- `show(opts)`: no-op (resolved promise, no effects) when already shown
or mid-transition, otherwise the three phases in sequence. -/
def show' (opts : Option Bool) (env : Env) (s : State) : State × List Effect :=
  if s.active || s.isTransitioning then (s, [])
  else
    let r1 := showBegin opts s
    let r2 := showAfterScreenReady env r1.1
    let r3 := showAfterAppClosed r2.1
    (r3.1, r1.2 ++ r2.2 ++ r3.2)

/-- The teardown loop in `hide`'s `eventSafety` callback:
`this.stack.forEach((app) => { this._removeApp(app); app.leaveTaskManager(); })`. -/
def teardownPass : List AppWindow → State → State × List Effect
  | [], s => (s, [])
  | app :: rest, s =>
    let r1 := _removeApp s app
    let r2 := teardownPass rest r1.1
    (r2.1, r1.2 ++ [Effect.leaveTaskManager app] ++ r2.2)

/-- The `eventSafety(newApp.element, '_opened', callback, 1000)` callback of
`hide`: deactivate, clear the CSS classes, and tear down every card with a
`leaveTaskManager` notification. -/
def hideCleanup (s : State) : State × List Effect :=
  let r1 := setActive false s
  let r2 := teardownPass s.stack r1.1
  (r2.1,
   r1.2 ++
     [Effect.removeClass "task-manager" "to-home",
      Effect.removeClass "task-manager" "filtered"] ++ r2.2)

/-- The outcome of running a JS method that may throw: either normal
completion or a propagated exception, each with the state and effect trace
at that point. -/
inductive Outcome where
  | completed (s : State) (trace : List Effect)
  | thrown (msg : String) (s : State) (trace : List Effect)
deriving DecidableEq, Repr

/-- `hide(newApp, animation)`.  `ackWithinTimeout` records whether the
target window fires `_opened` within the 1000ms bound; `eventSafety` runs
the cleanup callback in either case (modelled from the spec for the
out-of-repository `eventSafety` helper: "bounded wait, default 1000
time-units; proceeds anyway on timeout"), so the outcome does not depend
on it.  When all three target fallbacks are null, the JS code still
evaluates `newApp.isHomescreen` and throws a `TypeError`, so the cleanup
never runs: this is the `Outcome.thrown` branch. -/
def hide (newApp0 : Option AppWindow) (animation : Option String) (env : Env)
    (ackWithinTimeout : Bool) (s : State) : Outcome :=
  if !s.active || s.isTransitioning then Outcome.completed s []
  else
    let s1 : State := { s with isTransitioning := true }
    let newApp := jsOr (jsOr newApp0 env.activeApp) env.homescreen
    let latestStack := env.snapshot
    let newStackPosition := jsIndexOf latestStack newApp
    let e2 :=
      [Effect.removeListeners,
       Effect.removeClass "screen" "cards-view",
       Effect.publish "cardviewclosed"
         (if newStackPosition = -1 then none else some newStackPosition)]
    match newApp with
    | none => Outcome.thrown "TypeError: newApp is null" s1 e2
    | some app =>
      let openEffects :=
        if app.isHomescreen then
          [Effect.addClass "task-manager" "to-home",
           Effect.openWindow app "home-from-cardview"]
        else
          [Effect.openWindow app (match animation with | some a => a | none => "from-cardview")]
      let r := hideCleanup s1
      let _ := ackWithinTimeout
      Outcome.completed r.1 (e2 ++ openEffects ++ r.2)

/-- `cardAction(card, actionName)`.  The `close` action pans to the
second-to-last card first when closing the last one; `select` pans to the
card and then hides into it. -/
def cardAction (env : Env) (ackWithinTimeout : Bool) (card : Card)
    (actionName : String) (s : State) : Outcome :=
  if actionName = "close" then
    let index := jsIndexOf s.stack (some card.app)
    if 1 < s.stack.length ∧ index = (s.stack.length : Int) - 1 then
      let r1 := panToApp (stackGet s.stack ((s.stack.length : Int) - 2)) false s
      Outcome.completed r1.1 (r1.2 ++ [Effect.kill card.app])
    else
      Outcome.completed s [Effect.kill card.app]
  else if actionName = "favorite" then
    Outcome.completed s [Effect.consoleLog "cardAction: TODO: favorite"]
  else if actionName = "select" then
    let r1 := panToApp (some card.app) false s
    match hide (some card.app) none env ackWithinTimeout r1.1 with
    | Outcome.completed s2 e2 => Outcome.completed s2 (r1.2 ++ e2)
    | Outcome.thrown msg s2 e2 => Outcome.thrown msg s2 (r1.2 ++ e2)
  else
    Outcome.completed s []

/-- Does this effect mutate the card collection or notify a window's
switcher-lifecycle hook?  (Used to state reconciliation idempotence.) -/
def Effect.isCollectionMutation : Effect → Bool
  | Effect.appendChild _ => true
  | Effect.removeChild _ => true
  | Effect.enterTaskManager _ => true
  | Effect.leaveTaskManager _ => true
  | _ => false

/-- Is this effect the `cardviewshown` notification? -/
def Effect.isCardviewshown : Effect → Bool
  | Effect.publish t _ => t == "cardviewshown"
  | _ => false

/-- Number of `cardviewshown` notifications in a trace. -/
def countShown (t : List Effect) : Nat := t.countP (fun e => Effect.isCardviewshown e)

/-- A plain (non-browser, non-homescreen) window handle, for concrete
scenarios. -/
def mkApp (n : Nat) : AppWindow :=
  { id := n, isBrowser := false, manifestRole := none, isHomescreen := false }

/-- The state right after `new TaskManager()`, with a 320x480 viewport. -/
def initialState : State :=
  { appToCardMap := [], elementToCardMap := [], stack := [], currentCard := none,
    active := false, isTransitioning := false, browserOnly := false,
    disableScreenshots := false, nextCardId := 0,
    innerWidth := 320, innerHeight := 480, scrollLeft := 0, cardWidth := 0, cardHeight := 0 }

/-! ## Basic map lemmas -/

theorem mapFind_mapDelete {α β : Type} [DecidableEq α] (m : List (α × β)) (k x : α) :
    mapFind (mapDelete m k) x = if x = k then none else mapFind m x := by
  induction m with
  | nil => simp [mapFind, mapDelete]
  | cons p rest ih =>
    obtain ⟨a, b⟩ := p
    by_cases hak : a = k <;> by_cases hxk : x = k <;> by_cases hax : a = x <;>
      simp_all [mapFind, mapDelete]

theorem mapKeys_cons {α β : Type} (a : α) (b : β) (l : List (α × β)) :
    mapKeys ((a, b) :: l) = a :: mapKeys l := rfl

theorem mapFind_mapSet {α β : Type} [DecidableEq α] (m : List (α × β)) (k x : α) (v : β) :
    mapFind (mapSet m k v) x = if x = k then some v else mapFind m x := by
  induction m with
  | nil => simp [mapFind, mapSet, eq_comm]
  | cons p rest ih =>
    obtain ⟨a, b⟩ := p
    by_cases hak : a = k <;> by_cases hxk : x = k <;> by_cases hax : a = x <;>
      simp_all [mapFind, mapSet]

theorem mapFind_eq_none_iff {α β : Type} [DecidableEq α] (m : List (α × β)) (x : α) :
    mapFind m x = none ↔ x ∉ mapKeys m := by
  induction m with
  | nil => simp [mapFind, mapKeys]
  | cons p rest ih =>
    obtain ⟨a, b⟩ := p
    by_cases hax : a = x <;> simp_all [mapFind, mapKeys, eq_comm]

theorem mem_mapKeys_mapDelete {α β : Type} [DecidableEq α] (m : List (α × β)) (k x : α) :
    x ∈ mapKeys (mapDelete m k) ↔ x ∈ mapKeys m ∧ x ≠ k := by
  induction m with
  | nil => simp [mapDelete, mapKeys]
  | cons p rest ih =>
    obtain ⟨a, b⟩ := p
    by_cases hak : a = k <;> simp_all [mapDelete, mapKeys] <;> aesop

theorem nodup_mapKeys_mapDelete {α β : Type} [DecidableEq α] (m : List (α × β)) (k : α)
    (h : (mapKeys m).Nodup) : (mapKeys (mapDelete m k)).Nodup := by
  induction m with
  | nil => simp [mapDelete, mapKeys]
  | cons p rest ih =>
    obtain ⟨a, b⟩ := p
    simp only [mapKeys, List.map_cons, List.nodup_cons] at h
    by_cases hak : a = k
    · simpa [mapDelete, hak] using ih h.2
    · simp only [mapDelete, hak, if_false, mapKeys_cons, List.nodup_cons]
      refine ⟨fun hmem => h.1 ((mem_mapKeys_mapDelete rest k a).mp hmem).1, ih h.2⟩

theorem mapKeys_mapSet_of_none {α β : Type} [DecidableEq α] (m : List (α × β)) (k : α) (v : β)
    (h : mapFind m k = none) : mapKeys (mapSet m k v) = mapKeys m ++ [k] := by
  induction m with
  | nil => simp [mapSet, mapKeys]
  | cons p rest ih =>
    obtain ⟨a, b⟩ := p
    by_cases hak : a = k <;> simp_all [mapSet, mapKeys, mapFind]

/-! ## Frame lemmas: which state fields each pass can touch -/

theorem removeApp_frame (s : State) (app : AppWindow) :
    ∃ m e, (_removeApp s app).1 =
      { s with appToCardMap := m, elementToCardMap := e } := by
  unfold _removeApp
  cases mapFind s.appToCardMap app with
  | none => exact ⟨s.appToCardMap, s.elementToCardMap, rfl⟩
  | some card => exact ⟨_, _, rfl⟩

theorem removePass_frame (entries : List (AppWindow × Card)) (latest : List AppWindow) (s : State) :
    ∃ m e, (removePass entries latest s).1 =
      { s with appToCardMap := m, elementToCardMap := e } := by
  induction entries generalizing s with
  | nil => exact ⟨s.appToCardMap, s.elementToCardMap, rfl⟩
  | cons p rest ih =>
    obtain ⟨app, c⟩ := p
    by_cases hmem : app ∈ latest
    · simpa [removePass, hmem] using ih s
    · obtain ⟨m1, e1, h1⟩ := removeApp_frame s app
      obtain ⟨m2, e2, h2⟩ := ih (_removeApp s app).1
      refine ⟨m2, e2, ?_⟩
      simp only [removePass, hmem, if_false]
      rw [h2, h1]

theorem addPass_frame (apps : List AppWindow) (s : State) :
    ∃ m e n, (addPass apps s).1 =
      { s with appToCardMap := m, elementToCardMap := e, nextCardId := n } := by
  induction apps generalizing s with
  | nil => exact ⟨s.appToCardMap, s.elementToCardMap, s.nextCardId, rfl⟩
  | cons app rest ih =>
    cases hfind : mapFind s.appToCardMap app with
    | some c => simpa [addPass, hfind] using ih s
    | none =>
      obtain ⟨m2, e2, n2, h2⟩ := ih (_addApp s app).1
      refine ⟨m2, e2, n2, ?_⟩
      simp only [addPass, hfind]
      rw [h2]
      rfl

theorem updateScrollPosition_frame (s : State) :
    ∃ c, (updateScrollPosition s).1 = { s with currentCard := c } := by
  refine ⟨computedCurrentCard s, ?_⟩
  by_cases h : s.currentCard = computedCurrentCard s
  · simp only [updateScrollPosition, if_pos h]
    rw [← h]
  · simp only [updateScrollPosition, if_neg h]

theorem updateLayout_frame (s : State) :
    ∃ c, (updateLayout s).1 =
      { s with cardWidth := layoutCardWidth s.innerWidth,
               cardHeight := layoutCardWidth s.innerHeight,
               currentCard := c } := by
  unfold updateLayout
  obtain ⟨c, hc⟩ := updateScrollPosition_frame
    { s with cardWidth := layoutCardWidth s.innerWidth,
             cardHeight := layoutCardWidth s.innerHeight }
  exact ⟨c, by simpa using hc⟩

theorem updateStack_frame (snapshot : List AppWindow) (s : State) :
    ∃ m e n c, (updateStack snapshot s).1 =
      { s with appToCardMap := m, elementToCardMap := e, nextCardId := n,
               stack := if s.browserOnly then snapshot.filter isBrowserOrSearch else snapshot,
               currentCard := c,
               cardWidth := layoutCardWidth s.innerWidth,
               cardHeight := layoutCardWidth s.innerHeight } := by
  unfold updateStack
  set stack0 := if s.browserOnly then snapshot.filter isBrowserOrSearch else snapshot with hstack0
  set s1 : State := { s with stack := stack0 } with hs1
  obtain ⟨m2, e2, h2⟩ := removePass_frame s1.appToCardMap stack0 s1
  obtain ⟨m3, e3, n3, h3⟩ := addPass_frame stack0 (removePass s1.appToCardMap stack0 s1).1
  obtain ⟨c4, h4⟩ := updateLayout_frame (addPass stack0 (removePass s1.appToCardMap stack0 s1).1).1
  refine ⟨m3, e3, n3, c4, ?_⟩
  show (updateLayout (addPass stack0 (removePass s1.appToCardMap stack0 s1).1).1).1 = _
  rw [h4, h3, h2]

/-! ## What the reconciliation passes do to the app-to-card map -/

theorem mapFind_removeApp (s : State) (app x : AppWindow) :
    mapFind (_removeApp s app).1.appToCardMap x =
      if x = app then none else mapFind s.appToCardMap x := by
  unfold _removeApp
  cases hfind : mapFind s.appToCardMap app with
  | none =>
    by_cases hx : x = app <;> simp [hx, hfind]
  | some card =>
    simp [mapFind_mapDelete]

theorem mapFind_removePass (entries : List (AppWindow × Card)) (latest : List AppWindow)
    (s : State) (x : AppWindow) :
    mapFind (removePass entries latest s).1.appToCardMap x =
      if x ∉ latest ∧ x ∈ mapKeys entries then none else mapFind s.appToCardMap x := by
  induction entries generalizing s with
  | nil => simp [removePass, mapKeys]
  | cons p rest ih =>
    obtain ⟨app, c⟩ := p
    by_cases hmem : app ∈ latest
    · rw [removePass, if_pos hmem, ih]
      by_cases hlx : x ∈ latest
      · simp [hlx]
      · by_cases hxa : x = app
        · subst hxa; exact absurd hmem hlx
        · simp [hlx, mapKeys_cons, hxa]
    · rw [removePass, if_neg hmem]
      show mapFind (removePass rest latest (_removeApp s app).1).1.appToCardMap x = _
      rw [ih, mapFind_removeApp]
      by_cases hxa : x = app
      · subst hxa
        simp [hmem, mapKeys_cons]
      · by_cases hlx : x ∈ latest <;> simp [hlx, mapKeys_cons, hxa]

theorem mapFind_addPass_some (apps : List AppWindow) (s : State) (x : AppWindow) (c : Card)
    (h : mapFind s.appToCardMap x = some c) :
    mapFind (addPass apps s).1.appToCardMap x = some c := by
  induction apps generalizing s with
  | nil => simpa [addPass] using h
  | cons app rest ih =>
    cases hfind : mapFind s.appToCardMap app with
    | some d =>
      rw [addPass]
      simp only [hfind]
      exact ih s h
    | none =>
      have hxa : x ≠ app := fun he => by rw [he, hfind] at h; exact Option.noConfusion h
      rw [addPass]
      simp only [hfind]
      show mapFind (addPass rest (_addApp s app).1).1.appToCardMap x = some c
      refine ih _ ?_
      show mapFind (mapSet s.appToCardMap app _) x = some c
      rw [mapFind_mapSet, if_neg hxa]
      exact h

theorem mapFind_addPass_isSome (apps : List AppWindow) (s : State) (x : AppWindow) :
    (mapFind (addPass apps s).1.appToCardMap x).isSome = true ↔
      (mapFind s.appToCardMap x).isSome = true ∨ x ∈ apps := by
  induction apps generalizing s with
  | nil => simp [addPass]
  | cons app rest ih =>
    cases hfind : mapFind s.appToCardMap app with
    | some d =>
      rw [addPass]
      simp only [hfind, ih]
      by_cases hxa : x = app
      · subst hxa; simp [hfind]
      · simp [hxa]
    | none =>
      rw [addPass]
      simp only [hfind]
      show (mapFind (addPass rest (_addApp s app).1).1.appToCardMap x).isSome = true ↔ _
      rw [ih]
      show (mapFind (mapSet s.appToCardMap app _) x).isSome = true ∨ x ∈ rest ↔ _
      rw [mapFind_mapSet]
      by_cases hxa : x = app
      · subst hxa; simp
      · simp [hxa]

theorem addPass_enter_mem (apps : List AppWindow) (s : State) (x : AppWindow)
    (h : Effect.enterTaskManager x ∈ (addPass apps s).2) :
    x ∈ apps ∧ mapFind s.appToCardMap x = none := by
  induction apps generalizing s with
  | nil => simp [addPass] at h
  | cons app rest ih =>
    cases hfind : mapFind s.appToCardMap app with
    | some d =>
      rw [addPass] at h
      simp only [hfind] at h
      obtain ⟨hmem, hnone⟩ := ih s h
      exact ⟨List.mem_cons_of_mem _ hmem, hnone⟩
    | none =>
      rw [addPass] at h
      simp only [hfind] at h
      have h' : Effect.enterTaskManager x ∈ (_addApp s app).2.2 ∨ x = app ∨
          Effect.enterTaskManager x ∈ (addPass rest (_addApp s app).1).2 := by
        simpa using h
      rcases h' with hl | hl | hr
      · simp [_addApp] at hl
      · exact ⟨by simp [hl], hl ▸ hfind⟩
      · obtain ⟨hmem, hnone⟩ := ih _ hr
        have hfind2 : mapFind (mapSet s.appToCardMap app
            { cardId := s.nextCardId, app := app,
              screenshotsDisabled := s.disableScreenshots }) x = none := hnone
        rw [mapFind_mapSet] at hfind2
        by_cases hxa : x = app
        · rw [if_pos hxa] at hfind2; exact Option.noConfusion hfind2
        · rw [if_neg hxa] at hfind2
          exact ⟨List.mem_cons_of_mem _ hmem, hfind2⟩

theorem addPass_enter_of_none (apps : List AppWindow) (s : State) (x : AppWindow)
    (h1 : mapFind s.appToCardMap x = none) (h2 : x ∈ apps) :
    Effect.enterTaskManager x ∈ (addPass apps s).2 := by
  induction apps generalizing s with
  | nil => simp at h2
  | cons app rest ih =>
    by_cases hxa : x = app
    · subst hxa
      rw [addPass]
      simp only [h1]
      simp
    · have hmem : x ∈ rest := by
        rcases List.mem_cons.mp h2 with h | h
        · exact absurd h hxa
        · exact h
      cases hfind : mapFind s.appToCardMap app with
      | some d =>
        rw [addPass]
        simp only [hfind]
        exact ih s h1 hmem
      | none =>
        rw [addPass]
        simp only [hfind]
        have h1' : mapFind (_addApp s app).1.appToCardMap x = none := by
          show mapFind (mapSet s.appToCardMap app _) x = none
          rw [mapFind_mapSet, if_neg hxa]
          exact h1
        have := ih _ h1' hmem
        simp [this]

theorem removePass_no_removals (entries : List (AppWindow × Card)) (latest : List AppWindow)
    (s : State) (h : ∀ p ∈ entries, p.1 ∈ latest) :
    removePass entries latest s = (s, []) := by
  induction entries with
  | nil => rfl
  | cons p rest ih =>
    obtain ⟨a, c⟩ := p
    rw [removePass, if_pos (h (a, c) (List.mem_cons_self _ _))]
    exact ih fun q hq => h q (List.mem_cons_of_mem _ hq)

theorem addPass_no_additions (apps : List AppWindow) (s : State)
    (h : ∀ x ∈ apps, (mapFind s.appToCardMap x).isSome = true) :
    addPass apps s = (s, []) := by
  induction apps with
  | nil => rfl
  | cons app rest ih =>
    have happ := h app (List.mem_cons_self _ _)
    cases hfind : mapFind s.appToCardMap app with
    | none => rw [hfind] at happ; simp at happ
    | some c =>
      rw [addPass]
      simp only [hfind]
      exact ih fun x hx => h x (List.mem_cons_of_mem _ hx)

theorem nodup_removeApp (s : State) (app : AppWindow)
    (h : (mapKeys s.appToCardMap).Nodup) :
    (mapKeys (_removeApp s app).1.appToCardMap).Nodup := by
  unfold _removeApp
  cases mapFind s.appToCardMap app with
  | none => exact h
  | some card => exact nodup_mapKeys_mapDelete _ _ h

theorem nodup_removePass (entries : List (AppWindow × Card)) (latest : List AppWindow) (s : State)
    (h : (mapKeys s.appToCardMap).Nodup) :
    (mapKeys (removePass entries latest s).1.appToCardMap).Nodup := by
  induction entries generalizing s with
  | nil => exact h
  | cons p rest ih =>
    obtain ⟨a, c⟩ := p
    by_cases hmem : a ∈ latest
    · rw [removePass, if_pos hmem]; exact ih s h
    · rw [removePass, if_neg hmem]
      exact ih _ (nodup_removeApp s a h)

theorem nodup_addPass (apps : List AppWindow) (s : State)
    (h : (mapKeys s.appToCardMap).Nodup) :
    (mapKeys (addPass apps s).1.appToCardMap).Nodup := by
  induction apps generalizing s with
  | nil => exact h
  | cons app rest ih =>
    cases hfind : mapFind s.appToCardMap app with
    | some c =>
      rw [addPass]
      simp only [hfind]
      exact ih s h
    | none =>
      rw [addPass]
      simp only [hfind]
      refine ih _ ?_
      show (mapKeys (mapSet s.appToCardMap app _)).Nodup
      rw [mapKeys_mapSet_of_none _ _ _ hfind]
      have hnotmem : app ∉ mapKeys s.appToCardMap := (mapFind_eq_none_iff _ _).mp hfind
      simp [List.nodup_append, h, hnotmem]

/-! ## Effect-shape lemmas -/

theorem removeApp_effects_shape (s : State) (app : AppWindow) :
    ∀ e ∈ (_removeApp s app).2, ∃ i, e = Effect.removeChild i := by
  unfold _removeApp
  cases mapFind s.appToCardMap app with
  | none => simp
  | some card => simp

theorem removePass_effects_shape (entries : List (AppWindow × Card)) (latest : List AppWindow)
    (s : State) : ∀ e ∈ (removePass entries latest s).2, ∃ i, e = Effect.removeChild i := by
  induction entries generalizing s with
  | nil => simp [removePass]
  | cons p rest ih =>
    obtain ⟨a, c⟩ := p
    by_cases hmem : a ∈ latest
    · rw [removePass, if_pos hmem]; exact ih s
    · rw [removePass, if_neg hmem]
      intro e he
      rcases List.mem_append.mp he with hl | hr
      · exact removeApp_effects_shape s a e hl
      · exact ih _ e hr

theorem addPass_effects_shape (apps : List AppWindow) (s : State) :
    ∀ e ∈ (addPass apps s).2,
      (∃ i, e = Effect.appendChild i) ∨ (∃ a, e = Effect.enterTaskManager a) := by
  induction apps generalizing s with
  | nil => simp [addPass]
  | cons app rest ih =>
    cases hfind : mapFind s.appToCardMap app with
    | some c =>
      rw [addPass]
      simp only [hfind]
      exact ih s
    | none =>
      rw [addPass]
      simp only [hfind]
      intro e he
      have he' : e ∈ (_addApp s app).2.2 ∨ e = Effect.enterTaskManager app ∨
          e ∈ (addPass rest (_addApp s app).1).2 := by simpa using he
      rcases he' with hl | hl | hl
      · have : e = Effect.appendChild s.nextCardId := by simpa [_addApp] using hl
        exact Or.inl ⟨_, this⟩
      · exact Or.inr ⟨app, hl⟩
      · exact ih _ e hl

theorem translatePass_effects_shape (m : List (AppWindow × Card)) (stack : List AppWindow)
    (w : Rat) (i : Nat) :
    ∀ e ∈ translatePass m stack w i, ∃ cid x, e = Effect.translateCard cid x := by
  induction stack generalizing i with
  | nil => simp [translatePass]
  | cons app rest ih =>
    intro e he
    rw [translatePass] at he
    rcases List.mem_append.mp he with hl | hr
    · cases hfind : mapFind m app with
      | none => rw [hfind] at hl; simp at hl
      | some card =>
        rw [hfind] at hl
        have : e = Effect.translateCard card.cardId (layoutOffset w i) := by simpa using hl
        exact ⟨_, _, this⟩
    · exact ih (i + 1) e hr

theorem ariaPass_effects_shape (m : List (AppWindow × Card)) (stack : List AppWindow)
    (c : Option Card) (n i : Nat) :
    ∀ e ∈ ariaPass m stack c n i, ∃ cid a v, e = Effect.setAria cid a v := by
  induction stack generalizing i with
  | nil => simp [ariaPass]
  | cons app rest ih =>
    intro e he
    rw [ariaPass] at he
    rcases List.mem_append.mp he with hl | hr
    · cases hfind : mapFind m app with
      | none => rw [hfind] at hl; simp at hl
      | some card =>
        rw [hfind] at hl
        rcases List.mem_cons.mp hl with h1 | h1
        · exact ⟨_, _, _, h1⟩
        · rcases List.mem_cons.mp h1 with h2 | h2
          · exact ⟨_, _, _, h2⟩
          · rcases List.mem_cons.mp h2 with h3 | h3
            · exact ⟨_, _, _, h3⟩
            · simp at h3
    · exact ih (i + 1) e hr

/-! ## Scroll-position update: computed card and idempotence -/

theorem computedCurrentCard_set_currentCard (s : State) (c : Option Card) :
    computedCurrentCard { s with currentCard := c } = computedCurrentCard s := rfl

theorem updateScrollPosition_currentCard (s : State) :
    (updateScrollPosition s).1.currentCard = computedCurrentCard s := by
  by_cases h : s.currentCard = computedCurrentCard s
  · simp only [updateScrollPosition, if_pos h]
    exact h
  · simp only [updateScrollPosition, if_neg h]

theorem updateScrollPosition_idem (s : State) :
    updateScrollPosition (updateScrollPosition s).1 = ((updateScrollPosition s).1, []) := by
  obtain ⟨c, hc⟩ := updateScrollPosition_frame s
  have h1 : (updateScrollPosition s).1.currentCard =
      computedCurrentCard (updateScrollPosition s).1 := by
    rw [updateScrollPosition_currentCard s, hc]
    rfl
  show (if (updateScrollPosition s).1.currentCard =
      computedCurrentCard (updateScrollPosition s).1 then
        ((updateScrollPosition s).1, ([] : List Effect))
      else _) = _
  rw [if_pos h1]

/-! ## Composite facts about a full `updateStack` pass -/

theorem mem_mapKeys_iff_isSome {α β : Type} [DecidableEq α] (m : List (α × β)) (x : α) :
    x ∈ mapKeys m ↔ (mapFind m x).isSome = true := by
  rw [Option.isSome_iff_ne_none, Ne, mapFind_eq_none_iff, not_not]

theorem updateStack_fst (snapshot : List AppWindow) (s : State) :
    (updateStack snapshot s).1 =
      (updateLayout
        (addPass (if s.browserOnly then snapshot.filter isBrowserOrSearch else snapshot)
          (removePass s.appToCardMap
            (if s.browserOnly then snapshot.filter isBrowserOrSearch else snapshot)
            ({ s with
                stack := if s.browserOnly then snapshot.filter isBrowserOrSearch
                  else snapshot } : State)).1).1).1 := rfl

theorem updateLayout_fst (s : State) :
    (updateLayout s).1 =
      (updateScrollPosition
        { s with cardWidth := layoutCardWidth s.innerWidth,
                 cardHeight := layoutCardWidth s.innerHeight }).1 := rfl

theorem updateStack_map_eq (snapshot : List AppWindow) (s : State) :
    (updateStack snapshot s).1.appToCardMap =
      (addPass (if s.browserOnly then snapshot.filter isBrowserOrSearch else snapshot)
        (removePass s.appToCardMap
          (if s.browserOnly then snapshot.filter isBrowserOrSearch else snapshot)
          ({ s with
              stack := if s.browserOnly then snapshot.filter isBrowserOrSearch
                else snapshot } : State)).1).1.appToCardMap := by
  rw [updateStack_fst]
  obtain ⟨c, hc⟩ := updateLayout_frame
    (addPass (if s.browserOnly then snapshot.filter isBrowserOrSearch else snapshot)
      (removePass s.appToCardMap
        (if s.browserOnly then snapshot.filter isBrowserOrSearch else snapshot)
        ({ s with
            stack := if s.browserOnly then snapshot.filter isBrowserOrSearch
              else snapshot } : State)).1).1
  rw [hc]

theorem updateStack_mem_keys (snapshot : List AppWindow) (s : State) (x : AppWindow) :
    x ∈ mapKeys (updateStack snapshot s).1.appToCardMap ↔
      x ∈ (if s.browserOnly then snapshot.filter isBrowserOrSearch else snapshot) := by
  rw [mem_mapKeys_iff_isSome, updateStack_map_eq, mapFind_addPass_isSome]
  show (mapFind (removePass s.appToCardMap _ _).1.appToCardMap x).isSome = true ∨ _ ↔ _
  rw [mapFind_removePass]
  by_cases hx : x ∈ (if s.browserOnly then snapshot.filter isBrowserOrSearch else snapshot)
  · simp [hx]
  · by_cases hk : x ∈ mapKeys s.appToCardMap
    · simp [hx, hk]
    · simp [hx, hk, (mapFind_eq_none_iff s.appToCardMap x).mpr hk]

theorem updateStack_nodup_keys (snapshot : List AppWindow) (s : State)
    (h : (mapKeys s.appToCardMap).Nodup) :
    (mapKeys (updateStack snapshot s).1.appToCardMap).Nodup := by
  rw [updateStack_map_eq]
  exact nodup_addPass _ _ (nodup_removePass _ _ _ h)

theorem updateScrollPosition_after_updateStack (snapshot : List AppWindow) (s : State) :
    updateScrollPosition (updateStack snapshot s).1 = ((updateStack snapshot s).1, []) := by
  rw [updateStack_fst, updateLayout_fst]
  exact updateScrollPosition_idem _

/-- C1: for every stack snapshot (filtered by the browser-only predicate
when that mode is active), after `updateStack` completes the key set of
the app-to-card collection equals exactly the set of window handles in the
snapshot: every handle in it has exactly one card record, and no card
record exists for a handle absent from it. -/
theorem updateStack_reconciles_keys (snapshot : List AppWindow) (s : State)
    (hnd : (mapKeys s.appToCardMap).Nodup) (a : AppWindow) :
    (mapKeys (updateStack snapshot s).1.appToCardMap).count a =
      if a ∈ (if s.browserOnly then snapshot.filter isBrowserOrSearch else snapshot)
      then 1 else 0 := by
  by_cases hmem : a ∈ (if s.browserOnly then snapshot.filter isBrowserOrSearch else snapshot)
  · rw [if_pos hmem]
    exact List.count_eq_one_of_mem (updateStack_nodup_keys snapshot s hnd)
      ((updateStack_mem_keys snapshot s a).mpr hmem)
  · rw [if_neg hmem]
    refine List.count_eq_zero.mpr ?_
    intro hc
    exact hmem ((updateStack_mem_keys snapshot s a).mp hc)

/-- Witness for C1 at a concrete three-window snapshot and empty initial
collection. -/
theorem updateStack_reconciles_keys_witness :
    (mapKeys initialState.appToCardMap).Nodup ∧
      (mapKeys (updateStack [mkApp 0, mkApp 1] initialState).1.appToCardMap).count (mkApp 0) =
        if (mkApp 0) ∈ (if initialState.browserOnly
          then [mkApp 0, mkApp 1].filter isBrowserOrSearch else [mkApp 0, mkApp 1])
        then 1 else 0 :=
  ⟨by simp [initialState, mapKeys],
   updateStack_reconciles_keys [mkApp 0, mkApp 1] initialState
     (by simp [initialState, mapKeys]) (mkApp 0)⟩

theorem updateLayout_snd (s : State) :
    (updateLayout s).2 =
      translatePass s.appToCardMap s.stack s.innerWidth 0 ++
        [Effect.setCardsListWidth (layoutContentWidth s.innerWidth s.stack.length)] ++
        (updateScrollPosition
          { s with cardWidth := layoutCardWidth s.innerWidth,
                   cardHeight := layoutCardWidth s.innerHeight }).2 := rfl

theorem updateStack_eq (snapshot : List AppWindow) (s : State) :
    updateStack snapshot s =
      ((updateLayout
          (addPass (if s.browserOnly then snapshot.filter isBrowserOrSearch else snapshot)
            (removePass s.appToCardMap
              (if s.browserOnly then snapshot.filter isBrowserOrSearch else snapshot)
              ({ s with
                  stack := if s.browserOnly then snapshot.filter isBrowserOrSearch
                    else snapshot } : State)).1).1).1,
       [Effect.setL10nId
          (if s.browserOnly then "no-recent-browser-windows" else "no-recent-app-windows"),
        Effect.toggleClass "task-manager" "filtered" s.browserOnly] ++
         (removePass s.appToCardMap
           (if s.browserOnly then snapshot.filter isBrowserOrSearch else snapshot)
           ({ s with
               stack := if s.browserOnly then snapshot.filter isBrowserOrSearch
                 else snapshot } : State)).2 ++
         (addPass (if s.browserOnly then snapshot.filter isBrowserOrSearch else snapshot)
           (removePass s.appToCardMap
             (if s.browserOnly then snapshot.filter isBrowserOrSearch else snapshot)
             ({ s with
                 stack := if s.browserOnly then snapshot.filter isBrowserOrSearch
                   else snapshot } : State)).1).2 ++
         (updateLayout
           (addPass (if s.browserOnly then snapshot.filter isBrowserOrSearch else snapshot)
             (removePass s.appToCardMap
               (if s.browserOnly then snapshot.filter isBrowserOrSearch else snapshot)
               ({ s with
                   stack := if s.browserOnly then snapshot.filter isBrowserOrSearch
                     else snapshot } : State)).1).1).2) := rfl

/-- C2: for every snapshot, reconciling twice in succession with the same
snapshot yields the same card collection (indeed the identical state) as
reconciling once, and the second run performs no card creations, no card
removals and no switcher lifecycle notifications. -/
theorem updateStack_idempotent (snapshot : List AppWindow) (s : State) :
    (updateStack snapshot (updateStack snapshot s).1).1 = (updateStack snapshot s).1 ∧
    ∀ e ∈ (updateStack snapshot (updateStack snapshot s).1).2,
      e.isCollectionMutation = false := by
  obtain ⟨m, el, n, c, hframe⟩ := updateStack_frame snapshot s
  have hb : (updateStack snapshot s).1.browserOnly = s.browserOnly := by rw [hframe]
  have hst : (updateStack snapshot s).1.stack =
      (if s.browserOnly then snapshot.filter isBrowserOrSearch else snapshot) := by rw [hframe]
  have hiw : (updateStack snapshot s).1.innerWidth = s.innerWidth := by rw [hframe]
  have hih : (updateStack snapshot s).1.innerHeight = s.innerHeight := by rw [hframe]
  have hcw : (updateStack snapshot s).1.cardWidth = layoutCardWidth s.innerWidth := by
    rw [hframe]
  have hch : (updateStack snapshot s).1.cardHeight = layoutCardWidth s.innerHeight := by
    rw [hframe]
  have hst2 : (updateStack snapshot s).1.stack =
      (if (updateStack snapshot s).1.browserOnly then snapshot.filter isBrowserOrSearch
        else snapshot) := by
    rw [hb]; exact hst
  have hs1' : ({ (updateStack snapshot s).1 with
      stack := if (updateStack snapshot s).1.browserOnly then snapshot.filter isBrowserOrSearch
        else snapshot } : State) =
      (updateStack snapshot s).1 := by
    rw [← hst2]
  have hrm : removePass (updateStack snapshot s).1.appToCardMap
      (if (updateStack snapshot s).1.browserOnly then snapshot.filter isBrowserOrSearch
        else snapshot)
      (updateStack snapshot s).1 = ((updateStack snapshot s).1, []) := by
    rw [hb]
    refine removePass_no_removals _ _ _ ?_
    intro p hp
    exact (updateStack_mem_keys snapshot s p.1).mp (List.mem_map_of_mem Prod.fst hp)
  have hadd : addPass
      (if (updateStack snapshot s).1.browserOnly then snapshot.filter isBrowserOrSearch
        else snapshot)
      (updateStack snapshot s).1 = ((updateStack snapshot s).1, []) := by
    rw [hb]
    refine addPass_no_additions _ _ ?_
    intro x hx
    exact (mem_mapKeys_iff_isSome _ _).mp ((updateStack_mem_keys snapshot s x).mpr hx)
  have hL1 : ({ (updateStack snapshot s).1 with
      cardWidth := layoutCardWidth (updateStack snapshot s).1.innerWidth,
      cardHeight := layoutCardWidth (updateStack snapshot s).1.innerHeight } : State) =
      (updateStack snapshot s).1 := by
    rw [hiw, hih, ← hcw, ← hch]
  have hUSP : updateScrollPosition (updateStack snapshot s).1 =
      ((updateStack snapshot s).1, []) := updateScrollPosition_after_updateStack snapshot s
  have hULfst : (updateLayout (updateStack snapshot s).1).1 = (updateStack snapshot s).1 := by
    rw [updateLayout_fst, hL1, hUSP]
  have hULsnd : (updateLayout (updateStack snapshot s).1).2 =
      translatePass (updateStack snapshot s).1.appToCardMap (updateStack snapshot s).1.stack
        (updateStack snapshot s).1.innerWidth 0 ++
      [Effect.setCardsListWidth (layoutContentWidth (updateStack snapshot s).1.innerWidth
        (updateStack snapshot s).1.stack.length)] ++ [] := by
    rw [updateLayout_snd, hL1, hUSP]
  dsimp only at hs1'
  constructor
  · rw [updateStack_eq snapshot (updateStack snapshot s).1]
    dsimp only
    rw [hs1', hrm]
    dsimp only
    rw [hadd]
    dsimp only
    exact hULfst
  · rw [updateStack_eq snapshot (updateStack snapshot s).1]
    dsimp only
    rw [hs1', hrm]
    dsimp only
    rw [hadd]
    dsimp only
    rw [hULsnd]
    intro e he
    simp only [List.append_nil, List.append_assoc, List.mem_append, List.mem_cons,
      List.not_mem_nil, or_false] at he
    rcases he with (he | he) | he | he
    · rw [he]; rfl
    · rw [he]; rfl
    · obtain ⟨cid, x, hx⟩ := translatePass_effects_shape _ _ _ _ e he
      rw [hx]; rfl
    · rw [he]; rfl

/-- Witness for C2 at a concrete two-window snapshot. -/
theorem updateStack_idempotent_witness :
    (updateStack [mkApp 0, mkApp 1] (updateStack [mkApp 0, mkApp 1] initialState).1).1 =
      (updateStack [mkApp 0, mkApp 1] initialState).1 :=
  (updateStack_idempotent [mkApp 0, mkApp 1] initialState).1

theorem updateScrollPosition_effects_shape (s : State) :
    ∀ e ∈ (updateScrollPosition s).2, ∃ cid a v, e = Effect.setAria cid a v := by
  by_cases h : s.currentCard = computedCurrentCard s
  · simp only [updateScrollPosition, if_pos h]
    simp
  · simp only [updateScrollPosition, if_neg h]
    exact ariaPass_effects_shape _ _ _ _ _

theorem updateLayout_effects_shape (s : State) :
    ∀ e ∈ (updateLayout s).2,
      (∃ cid x, e = Effect.translateCard cid x) ∨
      (∃ w, e = Effect.setCardsListWidth w) ∨
      (∃ cid a v, e = Effect.setAria cid a v) := by
  intro e he
  rw [updateLayout_snd] at he
  rcases List.mem_append.mp he with h1 | h2
  · rcases List.mem_append.mp h1 with h1 | hm
    · exact Or.inl (translatePass_effects_shape _ _ _ _ e h1)
    · exact Or.inr (Or.inl ⟨_, by simpa using hm⟩)
  · exact Or.inr (Or.inr (updateScrollPosition_effects_shape _ e h2))

/-- Every effect an `updateStack` pass can perform, by constructor. -/
theorem updateStack_effects_shape (snapshot : List AppWindow) (s : State) :
    ∀ e ∈ (updateStack snapshot s).2,
      (∃ l, e = Effect.setL10nId l) ∨
      (∃ el cl f, e = Effect.toggleClass el cl f) ∨
      (∃ i, e = Effect.removeChild i) ∨
      (∃ i, e = Effect.appendChild i) ∨
      (∃ a, e = Effect.enterTaskManager a) ∨
      (∃ cid x, e = Effect.translateCard cid x) ∨
      (∃ w, e = Effect.setCardsListWidth w) ∨
      (∃ cid a v, e = Effect.setAria cid a v) := by
  intro e he
  rw [updateStack_eq] at he
  dsimp only at he
  rcases List.mem_append.mp he with h1 | hlay
  · rcases List.mem_append.mp h1 with h1 | hadd2
    · rcases List.mem_append.mp h1 with hl | hrem
      · rcases List.mem_cons.mp hl with h | h
        · exact Or.inl ⟨_, h⟩
        · rcases List.mem_cons.mp h with h | h
          · exact Or.inr (Or.inl ⟨_, _, _, h⟩)
          · simp at h
      · obtain ⟨i, hi⟩ := removePass_effects_shape _ _ _ e hrem
        exact Or.inr (Or.inr (Or.inl ⟨i, hi⟩))
    · rcases addPass_effects_shape _ _ e hadd2 with ⟨i, hi⟩ | ⟨a, ha⟩
      · exact Or.inr (Or.inr (Or.inr (Or.inl ⟨i, hi⟩)))
      · exact Or.inr (Or.inr (Or.inr (Or.inr (Or.inl ⟨a, ha⟩))))
  · rcases updateLayout_effects_shape _ e hlay with h | h | h
    · exact Or.inr (Or.inr (Or.inr (Or.inr (Or.inr (Or.inl h)))))
    · exact Or.inr (Or.inr (Or.inr (Or.inr (Or.inr (Or.inr (Or.inl h))))))
    · exact Or.inr (Or.inr (Or.inr (Or.inr (Or.inr (Or.inr (Or.inr h))))))

theorem updateStack_no_leave (snapshot : List AppWindow) (s : State) (y : AppWindow) :
    Effect.leaveTaskManager y ∉ (updateStack snapshot s).2 := by
  intro hmem
  rcases updateStack_effects_shape snapshot s _ hmem with
    ⟨l, h⟩ | ⟨el, cl, f, h⟩ | ⟨i, h⟩ | ⟨i, h⟩ | ⟨a, h⟩ | ⟨cid, x, h⟩ | ⟨w, h⟩ | ⟨cid, a, v, h⟩ <;>
    exact Effect.noConfusion h

theorem teardownPass_leave (apps : List AppWindow) (s : State) (a : AppWindow) (h : a ∈ apps) :
    Effect.leaveTaskManager a ∈ (teardownPass apps s).2 := by
  induction apps generalizing s with
  | nil => simp at h
  | cons app rest ih =>
    rw [teardownPass]
    rcases List.mem_cons.mp h with h1 | h1
    · subst h1; simp
    · have := ih (_removeApp s app).1 h1
      simp [this]

/-- C10: for every reconciliation pass, a window handle present both in
the collection before the pass and in the (filtered) new snapshot keeps
the very same card record (it is neither removed nor recreated), and
`enterTaskManager` is invoked only for handles that had no card record
before the pass. -/
theorem updateStack_preserves_records (snapshot : List AppWindow) (s : State)
    (a : AppWindow) (c : Card)
    (hmem : a ∈ (if s.browserOnly then snapshot.filter isBrowserOrSearch else snapshot))
    (hc : mapFind s.appToCardMap a = some c) :
    mapFind (updateStack snapshot s).1.appToCardMap a = some c ∧
    ∀ x, Effect.enterTaskManager x ∈ (updateStack snapshot s).2 →
      mapFind s.appToCardMap x = none := by
  constructor
  · rw [updateStack_map_eq]
    refine mapFind_addPass_some _ _ _ _ ?_
    rw [mapFind_removePass]
    rw [if_neg (fun h => h.1 hmem)]
    exact hc
  · intro x hx
    rw [updateStack_eq] at hx
    dsimp only at hx
    rcases List.mem_append.mp hx with h1 | hlay
    · rcases List.mem_append.mp h1 with h1 | hadd2
      · rcases List.mem_append.mp h1 with hl | hrem
        · simp at hl
        · obtain ⟨i, hi⟩ := removePass_effects_shape _ _ _ _ hrem
          exact Effect.noConfusion hi
      · obtain ⟨hxmem, hnone⟩ := addPass_enter_mem _ _ _ hadd2
        rw [mapFind_removePass] at hnone
        by_cases hcond : x ∉ (if s.browserOnly then snapshot.filter isBrowserOrSearch
            else snapshot) ∧ x ∈ mapKeys s.appToCardMap
        · exact absurd hxmem hcond.1
        · rw [if_neg hcond] at hnone
          exact hnone
    · rcases updateLayout_effects_shape _ _ hlay with ⟨_, _, h⟩ | ⟨_, h⟩ | ⟨_, _, _, h⟩ <;>
        exact Effect.noConfusion h

/-- Witness for C10: a two-window snapshot reconciled twice; the handle
`mkApp 0` keeps its record. -/
theorem updateStack_preserves_records_witness :
    mapFind (updateStack [mkApp 0]
        (updateStack [mkApp 0, mkApp 1] initialState).1).1.appToCardMap (mkApp 0) =
      some { cardId := 0, app := mkApp 0, screenshotsDisabled := false } :=
  (updateStack_preserves_records [mkApp 0] (updateStack [mkApp 0, mkApp 1] initialState).1
    (mkApp 0) { cardId := 0, app := mkApp 0, screenshotsDisabled := false }
    (by simp [updateStack, updateLayout, updateScrollPosition, computedCurrentCard,
      getCurrentIndex, stackGet, removePass, addPass, _addApp, _removeApp, mapFind, mapSet,
      mapDelete, translatePass, ariaPass, layoutCardWidth, layoutMargins, layoutOffset,
      layoutContentWidth, CARD_GUTTER, isBrowserOrSearch, mkApp, initialState])
    (by simp [updateStack, updateLayout, updateScrollPosition, computedCurrentCard,
      getCurrentIndex, stackGet, removePass, addPass, _addApp, _removeApp, mapFind, mapSet,
      mapDelete, translatePass, ariaPass, layoutCardWidth, layoutMargins, layoutOffset,
      layoutContentWidth, CARD_GUTTER, isBrowserOrSearch, mkApp, initialState])).1

/-- The card of `mkApp 0` in `c3State`. -/
def c3Card : Card := { cardId := 0, app := mkApp 0, screenshotsDisabled := false }

/-- A state in which window `mkApp 0` currently has a card, as a prior
reconciliation against the snapshot `[mkApp 0]` leaves it. -/
def c3State : State :=
  { initialState with
      appToCardMap := [(mkApp 0, c3Card)],
      elementToCardMap := [(0, c3Card)],
      stack := [mkApp 0],
      currentCard := some c3Card,
      nextCardId := 1,
      cardWidth := 160, cardHeight := 240 }

/-- C3 counterexample: reconciling `c3State` against the empty snapshot
removes the card record of `mkApp 0` (it is absent from the new snapshot),
yet the pass emits no `leaveTaskManager` notification for it — the removal
path of `updateStack` (`_removeApp`) never notifies the window, so the
claim as stated is false. -/
theorem updateStack_removal_no_leave_counterexample :
    (mapFind c3State.appToCardMap (mkApp 0)).isSome = true ∧
    mapFind (updateStack [] c3State).1.appToCardMap (mkApp 0) = none ∧
    Effect.leaveTaskManager (mkApp 0) ∉ (updateStack [] c3State).2 := by
  refine ⟨by simp [c3State, c3Card, mapFind, mkApp, initialState], ?_, ?_⟩ <;>
    simp [updateStack, updateLayout, updateScrollPosition, computedCurrentCard,
      getCurrentIndex, stackGet, removePass, addPass, _addApp, _removeApp, mapFind, mapSet,
      mapDelete, translatePass, ariaPass, layoutCardWidth, layoutMargins, layoutOffset,
      layoutContentWidth, CARD_GUTTER, isBrowserOrSearch, mkApp, initialState, c3State, c3Card]

/-- C3 (amended): every window handle whose card record is created during
a reconciliation pass is notified `enterTaskManager`; handles whose
records are removed because they are absent from the new snapshot receive
no notification at all from `updateStack` (which never emits
`leaveTaskManager`); the `leaveTaskManager` notification is instead sent
to every app remaining in the stack during `hide()`'s teardown. -/
theorem stack_lifecycle_notifications (snapshot : List AppWindow) (s t : State)
    (x a : AppWindow)
    (hnew : mapFind s.appToCardMap x = none)
    (hxmem : x ∈ (if s.browserOnly then snapshot.filter isBrowserOrSearch else snapshot))
    (hamem : a ∈ t.stack) :
    Effect.enterTaskManager x ∈ (updateStack snapshot s).2 ∧
    (∀ y, Effect.leaveTaskManager y ∉ (updateStack snapshot s).2) ∧
    Effect.leaveTaskManager a ∈ (hideCleanup t).2 := by
  refine ⟨?_, fun y => updateStack_no_leave snapshot s y, ?_⟩
  · have hnone2 : mapFind (removePass s.appToCardMap
        (if s.browserOnly then snapshot.filter isBrowserOrSearch else snapshot)
        ({ s with stack := if s.browserOnly then snapshot.filter isBrowserOrSearch
          else snapshot } : State)).1.appToCardMap x = none := by
      rw [mapFind_removePass]
      by_cases hcond : x ∉ (if s.browserOnly then snapshot.filter isBrowserOrSearch
          else snapshot) ∧ x ∈ mapKeys s.appToCardMap
      · rw [if_pos hcond]
      · rw [if_neg hcond]; exact hnew
    have henter := addPass_enter_of_none _ _ x hnone2 hxmem
    rw [updateStack_eq]
    dsimp only
    exact List.mem_append_left _ (List.mem_append_right _ henter)
  · show Effect.leaveTaskManager a ∈
      (setActive false t).2 ++ _ ++ (teardownPass t.stack (setActive false t).1).2
    exact List.mem_append_right _ (teardownPass_leave t.stack _ a hamem)

/-- Witness for C3's amended claim at concrete inputs: a fresh window
enters on reconciliation, and a shown one-card state tears down with a
leave notification. -/
theorem stack_lifecycle_notifications_witness :
    Effect.enterTaskManager (mkApp 1) ∈ (updateStack [mkApp 1] initialState).2 ∧
    Effect.leaveTaskManager (mkApp 0) ∈ (hideCleanup c3State).2 :=
  ⟨(stack_lifecycle_notifications [mkApp 1] initialState c3State (mkApp 1) (mkApp 0)
      (by simp [initialState, mapFind]) (by simp [initialState])
      (by simp [c3State, initialState])).1,
   (stack_lifecycle_notifications [mkApp 1] initialState c3State (mkApp 1) (mkApp 0)
      (by simp [initialState, mapFind]) (by simp [initialState])
      (by simp [c3State, initialState])).2.2⟩

/-- A shown three-card state scrolled 330px to the right. -/
def c4State : State :=
  { initialState with
      stack := [mkApp 0, mkApp 1, mkApp 2], scrollLeft := 330,
      cardWidth := 160, cardHeight := 240 }

/-- C4: for every non-negative scroll offset and non-empty stack (with the
positive card width the layout always produces), the computed current
index equals floor(scrollOffset / cardWidth) clamped to [0, n-1]; in
particular it is never negative and never exceeds n-1. -/
theorem getCurrentIndex_clamped (s : State)
    (hn : 1 ≤ s.stack.length) (hw : (0 : Rat) < s.cardWidth)
    (hs : (0 : Rat) ≤ s.scrollLeft) :
    getCurrentIndex s =
      max 0 (min ((s.stack.length : Int) - 1) (Int.floor (s.scrollLeft / s.cardWidth))) ∧
    0 ≤ getCurrentIndex s ∧ getCurrentIndex s ≤ (s.stack.length : Int) - 1 := by
  have hq : (0 : Rat) ≤ s.scrollLeft / s.cardWidth := div_nonneg hs hw.le
  have hf : (0 : Int) ≤ Int.floor (s.scrollLeft / s.cardWidth) :=
    Int.le_floor.mpr (by exact_mod_cast hq)
  have hn' : (0 : Int) ≤ (s.stack.length : Int) - 1 := by
    have h1 : (1 : Int) ≤ (s.stack.length : Int) := by exact_mod_cast hn
    omega
  have hmin : (0 : Int) ≤
      min ((s.stack.length : Int) - 1) (Int.floor (s.scrollLeft / s.cardWidth)) :=
    le_min hn' hf
  exact ⟨(max_eq_right hmin).symm, hmin, min_le_left _ _⟩

/-- Witness for C4: three cards, 160px card width, scrolled to 330px: the
current index is 2. -/
theorem getCurrentIndex_clamped_witness :
    1 ≤ c4State.stack.length ∧ (0 : Rat) < c4State.cardWidth ∧
    (0 : Rat) ≤ c4State.scrollLeft ∧
    (getCurrentIndex c4State =
      max 0 (min ((c4State.stack.length : Int) - 1)
        (Int.floor (c4State.scrollLeft / c4State.cardWidth))) ∧
     0 ≤ getCurrentIndex c4State ∧
     getCurrentIndex c4State ≤ (c4State.stack.length : Int) - 1) :=
  ⟨by simp [c4State, initialState],
   by norm_num [c4State, initialState],
   by norm_num [c4State, initialState],
   getCurrentIndex_clamped c4State (by simp [c4State, initialState])
     (by norm_num [c4State, initialState]) (by norm_num [c4State, initialState])⟩

/-- C5: for every non-negative viewport width and card count, the layout
computes cardWidth = w/2; the offset of the card at position i equals
margin/2 + i*(cardWidth + gutter) with margin = w - cardWidth; consecutive
offsets increase by exactly cardWidth + gutter; the total scroll width
equals margin + max(cardWidth, cardWidth*n + gutter*(n-1)); and the
zero-card case yields the stable non-negative width w. -/
theorem updateLayout_spec (w : Rat) (hw : (0 : Rat) ≤ w) (n i : Nat) (s : State) :
    layoutCardWidth w = w / 2 ∧
    layoutOffset w i =
      (w - layoutCardWidth w) / 2 + (layoutCardWidth w + CARD_GUTTER) * (i : Rat) ∧
    layoutOffset w (i + 1) - layoutOffset w i = layoutCardWidth w + CARD_GUTTER ∧
    layoutContentWidth w n =
      (w - layoutCardWidth w) +
        max (layoutCardWidth w)
          (layoutCardWidth w * (n : Rat) + CARD_GUTTER * ((n : Rat) - 1)) ∧
    layoutContentWidth w 0 = w ∧
    0 ≤ layoutContentWidth w n ∧
    (updateLayout s).1.cardWidth = s.innerWidth / 2 ∧
    Effect.setCardsListWidth (layoutContentWidth s.innerWidth s.stack.length) ∈
      (updateLayout s).2 := by
  refine ⟨rfl, rfl, ?_, rfl, ?_, ?_, ?_, ?_⟩
  · unfold layoutOffset layoutMargins layoutCardWidth CARD_GUTTER
    push_cast
    ring
  · unfold layoutContentWidth layoutMargins layoutCardWidth CARD_GUTTER
    rw [show (((0 : Nat) : Rat)) = (0 : Rat) by norm_num]
    rw [show w / 2 * 0 + 25 * ((0 : Rat) - 1) = -25 by ring]
    rw [max_eq_left (by linarith)]
    ring
  · unfold layoutContentWidth layoutMargins layoutCardWidth CARD_GUTTER
    have h1 : w / 2 ≤ max (w / 2) (w / 2 * (n : Rat) + 25 * ((n : Rat) - 1)) :=
      le_max_left _ _
    linarith
  · obtain ⟨c, hc⟩ := updateLayout_frame s
    rw [hc]
    rfl
  · rw [updateLayout_snd]
    simp

/-- Witness for C5 at the spec's concrete scenario (320px viewport, 3
cards): cardWidth 160, stride 185, total width 690. -/
theorem updateLayout_spec_witness :
    (0 : Rat) ≤ 320 ∧ layoutContentWidth 320 3 = 690 ∧ layoutOffset 320 1 = 265 ∧
    layoutContentWidth 320 0 = 320 :=
  ⟨by norm_num,
   by norm_num [layoutContentWidth, layoutMargins, layoutCardWidth, CARD_GUTTER],
   by norm_num [layoutOffset, layoutMargins, layoutCardWidth, CARD_GUTTER],
   (updateLayout_spec 320 (by norm_num) 3 1 initialState).2.2.2.2.1⟩

/-- C9: if the computed current card is unchanged from the previous call,
`updateScrollPosition` is skipped entirely (state unchanged, no effects,
in particular no aria-hidden / aria-setsize / aria-posinset writes);
attribute writes occur only when the computed current card differs from
the stored one. -/
theorem updateScrollPosition_skip (s : State) :
    (computedCurrentCard s = s.currentCard → updateScrollPosition s = (s, [])) ∧
    (∀ cid attr v, Effect.setAria cid attr v ∈ (updateScrollPosition s).2 →
      computedCurrentCard s ≠ s.currentCard) := by
  constructor
  · intro h
    simp only [updateScrollPosition, if_pos h.symm]
  · intro cid attr v hmem h
    simp only [updateScrollPosition, if_pos h.symm] at hmem
    simp at hmem

/-- A shown three-card state, scrolled to the first card, whose current
card is already recorded. -/
def c9State : State :=
  { c4State with
      scrollLeft := 0,
      appToCardMap := [(mkApp 0, c3Card)],
      currentCard := some c3Card }

/-- Witness for C9: with the scroll position unchanged since the card at
index 0 became current, the update is a no-op. -/
theorem updateScrollPosition_skip_witness :
    updateScrollPosition c9State = (c9State, []) :=
  (updateScrollPosition_skip _).1
    (by norm_num [computedCurrentCard, getCurrentIndex, stackGet, mapFind, c9State, c4State,
      c3Card, initialState, mkApp])

/-! ## panToApp and cardAction -/

theorem panToApp_effects_shape (app : Option AppWindow) (im : Bool) (s : State) :
    ∀ e ∈ (panToApp app im s).2, ∃ x sm, e = Effect.scrollTo x sm := by
  intro e he
  simp only [panToApp] at he
  split at he
  · split at he
    · simp at he
    · exact ⟨_, _, by simpa using he⟩
  · split at he
    · simp at he
    · exact ⟨_, _, by simpa using he⟩

theorem cardAction_close (env : Env) (ack : Bool) (card : Card) (s : State) :
    cardAction env ack card "close" s =
      if 1 < s.stack.length ∧
          jsIndexOf s.stack (some card.app) = (s.stack.length : Int) - 1 then
        Outcome.completed
          (panToApp (stackGet s.stack ((s.stack.length : Int) - 2)) false s).1
          ((panToApp (stackGet s.stack ((s.stack.length : Int) - 2)) false s).2 ++
            [Effect.kill card.app])
      else Outcome.completed s [Effect.kill card.app] := by
  simp [cardAction]

/-- C8: for a close action in a stack of at least two cards: if the card
occupies the last position, the pan to the second-to-last position
completes before kill() (the kill effect follows every pan effect in the
trace, and the pan trace contains no kill); if the card occupies an
earlier position, kill() is issued immediately with no pan at all. -/
theorem cardAction_close_sequencing (env : Env) (ack : Bool) (card : Card) (s : State)
    (hmem : card.app ∈ s.stack) (hlen : 2 ≤ s.stack.length) :
    (jsIndexOf s.stack (some card.app) = (s.stack.length : Int) - 1 →
      cardAction env ack card "close" s =
        Outcome.completed
          (panToApp (stackGet s.stack ((s.stack.length : Int) - 2)) false s).1
          ((panToApp (stackGet s.stack ((s.stack.length : Int) - 2)) false s).2 ++
            [Effect.kill card.app]) ∧
      ∀ a, Effect.kill a ∉
        (panToApp (stackGet s.stack ((s.stack.length : Int) - 2)) false s).2) ∧
    (jsIndexOf s.stack (some card.app) ≠ (s.stack.length : Int) - 1 →
      cardAction env ack card "close" s = Outcome.completed s [Effect.kill card.app]) := by
  have hlen' : 1 < s.stack.length := by omega
  constructor
  · intro hidx
    refine ⟨?_, ?_⟩
    · rw [cardAction_close, if_pos ⟨hlen', hidx⟩]
    · intro a hmem2
      obtain ⟨x, sm, hx⟩ := panToApp_effects_shape _ _ _ _ hmem2
      exact Effect.noConfusion hx
  · intro hidx
    rw [cardAction_close, if_neg (fun h => hidx h.2)]

/-- The card representing the last window of `c4State`. -/
def c8Card : Card := { cardId := 2, app := mkApp 2, screenshotsDisabled := false }

/-- An environment with nothing running, for concrete scenarios. -/
def emptyEnv : Env := { snapshot := [], currentApp := none, activeApp := none, homescreen := none }

/-- Witness for C8: closing the last card of a 3-card stack pans to the
second-to-last card and only then kills the window. -/
theorem cardAction_close_sequencing_witness :
    c8Card.app ∈ c4State.stack ∧ 2 ≤ c4State.stack.length ∧
    cardAction emptyEnv true c8Card "close" c4State =
      Outcome.completed
        (panToApp (stackGet c4State.stack ((c4State.stack.length : Int) - 2)) false c4State).1
        ((panToApp (stackGet c4State.stack ((c4State.stack.length : Int) - 2)) false
            c4State).2 ++
          [Effect.kill c8Card.app]) :=
  ⟨by simp [c8Card, c4State, initialState, mkApp],
   by simp [c4State, initialState],
   ((cardAction_close_sequencing emptyEnv true c8Card c4State
      (by simp [c8Card, c4State, initialState, mkApp])
      (by simp [c4State, initialState])).1
      (by simp [c8Card, c4State, initialState, jsIndexOf, mkApp])).1⟩

/-! ## show(): re-entrancy guard and the cardviewshown notification -/

theorem countShown_append (a b : List Effect) :
    countShown (a ++ b) = countShown a + countShown b := List.countP_append _ _ _

theorem countShown_cons (e : Effect) (l : List Effect) :
    countShown (e :: l) = countShown l + (if Effect.isCardviewshown e then 1 else 0) :=
  List.countP_cons _ _ _

theorem countShown_updateStack (snapshot : List AppWindow) (s : State) :
    countShown (updateStack snapshot s).2 = 0 := by
  rw [countShown, List.countP_eq_zero]
  intro e he
  rcases updateStack_effects_shape snapshot s e he with
    ⟨l, rfl⟩ | ⟨el, cl, f, rfl⟩ | ⟨i, rfl⟩ | ⟨i, rfl⟩ | ⟨a, rfl⟩ | ⟨cid, x, rfl⟩ | ⟨w, rfl⟩ |
    ⟨cid, a, v, rfl⟩ <;> simp [Effect.isCardviewshown]

theorem countShown_panToApp (app : Option AppWindow) (im : Bool) (s : State) :
    countShown (panToApp app im s).2 = 0 := by
  rw [countShown, List.countP_eq_zero]
  intro e he
  obtain ⟨x, sm, rfl⟩ := panToApp_effects_shape _ _ _ e he
  simp [Effect.isCardviewshown]

theorem countShown_setActive (b : Bool) (s : State) :
    countShown (setActive b s).2 = 0 := by
  unfold setActive
  split
  · simp [countShown]
  · cases b <;> simp [countShown, Effect.isCardviewshown]

theorem countShown_showAfterScreenReady (env : Env) (s : State) :
    countShown (showAfterScreenReady env s).2 = 0 := by
  unfold showAfterScreenReady
  dsimp only
  rw [countShown_cons, countShown_append, countShown_append, countShown_append,
    countShown_updateStack, countShown_panToApp, countShown_setActive]
  cases henv : env.activeApp with
  | none => rfl
  | some app => by_cases h : app.isHomescreen <;> simp [h, countShown, Effect.isCardviewshown]

theorem show_eq_of_hidden (opts : Option Bool) (env : Env) (s : State)
    (ha : s.active = false) (ht : s.isTransitioning = false) :
    show' opts env s =
      ((showAfterAppClosed (showAfterScreenReady env (showBegin opts s).1).1).1,
       (showBegin opts s).2 ++ (showAfterScreenReady env (showBegin opts s).1).2 ++
         (showAfterAppClosed (showAfterScreenReady env (showBegin opts s).1).1).2) := by
  rw [show', if_neg (by simp [ha, ht])]

/-- C7: show() while already shown or mid-transition is a no-op that
resolves immediately with no observable effect; consequently when show()
is called a second time before the first call's transition completes, the
second call contributes nothing and exactly one `cardviewshown`
notification is published in total. -/
theorem show_reentrancy (opts opts2 : Option Bool) (env env2 : Env) (s : State)
    (ha : s.active = false) (ht : s.isTransitioning = false) :
    (∀ t : State, t.active = true ∨ t.isTransitioning = true →
      show' opts2 env2 t = (t, [])) ∧
    show' opts2 env2 (showBegin opts s).1 = ((showBegin opts s).1, []) ∧
    countShown (show' opts env s).2 = 1 := by
  refine ⟨?_, ?_, ?_⟩
  · intro t h
    rcases h with h | h <;> simp [show', h]
  · simp [show', showBegin]
  · rw [show_eq_of_hidden opts env s ha ht]
    dsimp only
    rw [countShown_append, countShown_append, countShown_showAfterScreenReady]
    rfl

/-- Witness for C7: two rapid show() calls from the freshly constructed
hidden state; the second is a no-op and one cardviewshown is published. -/
theorem show_reentrancy_witness :
    initialState.active = false ∧ initialState.isTransitioning = false ∧
    show' none emptyEnv (showBegin (some true) initialState).1 =
      ((showBegin (some true) initialState).1, []) ∧
    countShown (show' (some true) emptyEnv initialState).2 = 1 :=
  ⟨rfl, rfl,
   (show_reentrancy (some true) none emptyEnv emptyEnv initialState rfl rfl).2.1,
   (show_reentrancy (some true) none emptyEnv emptyEnv initialState rfl rfl).2.2⟩

/-! ## hide(): the unresolvable-target input -/

/-- A shown one-card state (active, not mid-transition). -/
def c6State : State := { c3State with active := true }

/-- C6 (code evaluated at the failing input): hide() while shown, with no
explicit target, no active window and no homescreen resolvable, throws a
TypeError at `newApp.isHomescreen` right after publishing `cardviewclosed`.
The `eventSafety` teardown callback is never installed, `_isTransitioning`
remains true and `_active` remains true, so the switcher never reaches
Hidden and every later show()/hide() call is a guard no-op — contradicting
the claim that the open step is skipped and teardown still proceeds. -/
theorem hide_unresolvable_target_throws :
    hide none none emptyEnv true c6State =
      Outcome.thrown "TypeError: newApp is null" { c6State with isTransitioning := true }
        [Effect.removeListeners, Effect.removeClass "screen" "cards-view",
         Effect.publish "cardviewclosed" none] ∧
    ({ c6State with isTransitioning := true } : State).active = true ∧
    ({ c6State with isTransitioning := true } : State).isTransitioning = true :=
  ⟨rfl, rfl, rfl⟩

end TaskManager
